import Mathlib

/-!
A shallow embedding of the preflight QC validator
(`servers/preflight/src/qc_validate.py`) and of the plan-building helpers
(`servers/preflight/src/preflight_build.py`), together with theorems
settling the frozen claims about them.

Modelling conventions:
* Python `str` is Lean `String`; `str.lower` is modelled by `lowerStr`,
  which covers ASCII plus the non-ASCII letters (Å, Ä, Ö, É) occurring in
  the embedded lexicons.
* Rule scores are integers in the source and are modelled as `Int`; the
  composite score is computed by the source in IEEE doubles over the
  one-twentieth-grained weights and is modelled in exact rationals (`ℚ`),
  with Python's `round(x, 1)` (round half to even) modelled exactly on `ℚ`.
* The regular expressions of the trust rule are modelled by hand-rolled
  scanners that accept the same strings over the modelled alphabet.
* `Issue` keeps the `type`, `category` and `code` fields of the source
  dicts; the free-text `message` and the `location` payloads are elided
  (no claim mentions them). Likewise the purely informational
  `recommendations`, `human_signoff_required` and `next_actions` outputs
  of `validate` are not modelled.
* The bounded recursion of `QCValidator.validate` (the re-validation after
  an applied auto-fix always passes `auto_fix=False`) is unrolled: the
  inner call is exactly `validateResult` and leaves the instance state
  unchanged.
-/

namespace QC

/-- Python `c.lower()` restricted to the characters of the lexicons. -/
def lowerChar (c : Char) : Char :=
  if c = 'Å' then 'å' else if c = 'Ä' then 'ä'
  else if c = 'Ö' then 'ö' else if c = 'É' then 'é' else c.toLower

/-- Python `s.lower()`. -/
def lowerStr (s : String) : String := String.mk (s.data.map lowerChar)

/-- Python `s.upper()` (ASCII, as used on the compliance category
names). -/
def upperStr (s : String) : String := String.mk (s.data.map Char.toUpper)

/-- Python `\s` — and the whitespace stripped by `str.strip()` — on the
modelled alphabet. -/
def isSpaceChar (c : Char) : Bool :=
  c == ' ' || c == '\t' || c == '\n' || c == '\r'

/-- Python `str.strip()`. -/
def trimStr (s : String) : String :=
  String.mk (((s.data.dropWhile isSpaceChar).reverse.dropWhile isSpaceChar).reverse)

/-- The line accumulator of Python `text.split('\n')`. -/
def splitAtNewlines : List Char → List Char → List String
  | [], acc => [String.mk acc.reverse]
  | c :: cs, acc =>
    if c = '\n' then String.mk acc.reverse :: splitAtNewlines cs []
    else splitAtNewlines cs (c :: acc)

/-- Python `text.split('\n')`. -/
def splitLinesStr (s : String) : List String := splitAtNewlines s.data []

/-- Python `" ".join(xs)`. -/
def joinWithSpace : List String → String
  | [] => ""
  | [s] => s
  | s :: rest => s ++ " " ++ joinWithSpace rest

/-- `startMatch n h`: `n` is an initial segment of `h`. -/
def startMatch : List Char → List Char → Bool
  | [], _ => true
  | _ :: _, [] => false
  | c :: cs, d :: ds => c == d && startMatch cs ds

/-- Python's substring test `n in h`, on the underlying character lists. -/
def hasSub : List Char → List Char → Bool
  | n, [] => n.isEmpty
  | n, d :: ds => startMatch n (d :: ds) || hasSub n ds

/-- Python's substring test `needle in hay` on strings. -/
def strIn (needle hay : String) : Bool := hasSub needle.data hay.data

/-- Characters treated as sentence delimiters by `_split_sentences`
(the regex class `[.!?]`). -/
def isSentenceDelim (c : Char) : Bool := c == '.' || c == '!' || c == '?'

/-- Splits a character list at every delimiter character (one chunk per
delimiter gap; empty chunks are kept here and dropped by the caller,
which matches `re.split(r'[.!?]+', text)` after the empty-filter). -/
def splitChunks : List Char → List Char → List (List Char)
  | [], acc => [acc.reverse]
  | c :: cs, acc =>
    if isSentenceDelim c then acc.reverse :: splitChunks cs []
    else splitChunks cs (c :: acc)

/-- `QCValidator._split_sentences`: split on runs of `.!?`, strip each
piece, drop the empty ones. -/
def splitSentences (s : String) : List String :=
  ((splitChunks s.data []).map (fun cs => trimStr (String.mk cs))).filter
    (fun t => t ≠ "")

/-- Python `\w` (word character), restricted to the modelled alphabet. -/
def isWordChar (c : Char) : Bool :=
  c.isAlphanum || c == '_' || c == 'å' || c == 'ä' || c == 'ö' || c == 'é'

/-- Word count: the number of `\b\w+\b` matches, i.e. the number of
maximal runs of word characters.  The boolean argument records whether
the previous character was a word character. -/
def countWords : List Char → Bool → Nat
  | [], _ => 0
  | c :: cs, inWord =>
    if isWordChar c then (if inWord then 0 else 1) + countWords cs true
    else countWords cs false

/-- True when a character list starts with `]`. -/
def headIsCloseBr : List Char → Bool
  | ']' :: _ => true
  | _ => false

/-- Position (if any) at which the first `]]` closing a link starts,
failing at a newline (the regex `.` of `\[\[(.*?)\]\]` does not cross
lines). -/
def findCloseIdx : List Char → Option Nat
  | [] => none
  | c :: cs =>
    if c = '\n' then none
    else if c = ']' ∧ headIsCloseBr cs then some 0
    else (findCloseIdx cs).map (· + 1)

theorem findCloseIdx_lt :
    ∀ cs i, findCloseIdx cs = some i → i < cs.length := by
  intro cs
  induction cs with
  | nil => intro i h; simp [findCloseIdx] at h
  | cons c cs ih =>
    intro i h
    unfold findCloseIdx at h
    split at h
    · exact absurd h (by simp)
    · split at h
      · simp only [Option.some_inj] at h
        simp only [List.length_cons]
        omega
      · rcases Option.map_eq_some'.mp h with ⟨j, hj, hji⟩
        have := ih j hj
        simp only [List.length_cons]
        omega

/-- The scan of `QCValidator._extract_links`, with an explicit fuel
argument so that the recursion is structural (every step consumes at
least one character, so fuel equal to the list length never runs out):
at `[[` take the lazily matched span up to the first `]]` before a
newline and continue after it; on failure resume one character later
(as the regex engine does). -/
def linkScanF : Nat → List Char → List String
  | 0, _ => []
  | _ + 1, [] => []
  | fuel + 1, '[' :: '[' :: rest =>
    match findCloseIdx rest with
    | some i => String.mk (rest.take i) :: linkScanF fuel (rest.drop (i + 2))
    | none => linkScanF fuel ('[' :: rest)
  | fuel + 1, _ :: cs => linkScanF fuel cs

/-- `QCValidator._extract_links`, as the list of link texts: every
`[[...]]` span (lazily matched, not crossing a newline) in order. -/
def linkScan (cs : List Char) : List String := linkScanF cs.length cs

/-! ### The parsed-article data model (`_parse_article`) -/

/-- One paragraph line: stripped text, the `[[`/`]]` flag, and the
sentence breakdown.  The `line_number` field of the source is elided. -/
structure Paragraph where
  text : String
  hasLink : Bool
  sentences : List String
deriving Repr, DecidableEq

/-- One article section: header level, stripped title, paragraphs. -/
structure ArticleSection where
  level : Nat
  title : String
  paragraphs : List Paragraph
deriving Repr, DecidableEq

/-- The parsed document (`article_data`): sections, extracted link texts,
word count and the untouched full text. -/
structure ArticleData where
  sections : List ArticleSection
  links : List String
  wordCount : Nat
  fullText : String
deriving Repr, DecidableEq

/-- A line opens a section when it begins with two or more `#`
(`line.startswith('##')`). -/
def isHeaderLine (l : String) : Bool := startMatch "##".data l.data

/-- The header level: the count of leading `#` (`re.match(r'^#+', line)`). -/
def leadingHashCount (l : String) : Nat := (l.data.takeWhile (· == '#')).length

/-- The section title: `line.lstrip('#').strip()`. -/
def headerTitle (l : String) : String :=
  trimStr (String.mk (l.data.dropWhile (· == '#')))

/-- A fresh section opened by a header line. -/
def newSection (l : String) : ArticleSection :=
  { level := leadingHashCount l, title := headerTitle l, paragraphs := [] }

/-- One paragraph entry built from a non-blank body line. -/
def mkParagraph (l : String) : Paragraph :=
  { text := trimStr l
    hasLink := strIn "[[" l && strIn "]]" l
    sentences := splitSentences l }

/-- Appends a paragraph to the currently open section. -/
def addParagraph (c : ArticleSection) (l : String) : ArticleSection :=
  { c with paragraphs := c.paragraphs ++ [mkParagraph l] }

/-- The line loop of `_parse_article`: sections are emitted in document
order; body lines are dropped while no section is open. -/
def parseLines : List String → Option ArticleSection → List ArticleSection
  | [], none => []
  | [], some c => [c]
  | l :: ls, cur =>
    if isHeaderLine l then
      match cur with
      | some c => c :: parseLines ls (some (newSection l))
      | none => parseLines ls (some (newSection l))
    else if trimStr l ≠ "" then
      match cur with
      | some c => parseLines ls (some (addParagraph c l))
      | none => parseLines ls none
    else parseLines ls cur

/-- `QCValidator._parse_article`. -/
def parseArticle (text : String) : ArticleData :=
  { sections := parseLines (splitLinesStr text) none
    links := linkScan text.data
    wordCount := countWords text.data false
    fullText := text }

/-! ### The placement-plan data model (`preflight_matrix`) -/

/-- `anchor_plan.placement`: required section key and paragraph position.
The informational `seeded` flag is elided. -/
structure AnchorPlacement where
  sectionKey : String
  paragraph : Nat
deriving Repr, DecidableEq

/-- `anchor_plan`: the validator reads only `primary` and `placement`;
the `type` and `backup` fields are elided. -/
structure AnchorPlan where
  primary : String
  placement : AnchorPlacement
deriving Repr, DecidableEq

/-- `lsi_near_window.policy`. -/
structure WindowPolicy where
  minCount : Nat
  maxCount : Nat
  radiusSentences : Nat
  maxRepeat : Nat
deriving Repr, DecidableEq

/-- `lsi_near_window`. -/
structure LsiWindow where
  policy : WindowPolicy
  terms : List String
deriving Repr, DecidableEq

/-- One entry of the `trust` list. -/
structure TrustSource where
  domain : String
  level : String
  rationale : String
deriving Repr, DecidableEq

/-- The placement plan as consumed by the validator.  `wordCount = none`
models an absent `word_count` key (read with default 800); `trust = none`
and `lsiNearWindow = none` model absent keys (their rules return the
fixed 70); an absent or empty `guards.compliance` is modelled as `[]`
(both are falsy in the source). -/
structure PreflightMatrix where
  anchorPlan : AnchorPlan
  wordCount : Option Nat
  lsiNearWindow : Option LsiWindow
  trust : Option (List TrustSource)
  guardsCompliance : List String
deriving Repr, DecidableEq

/-- One validation issue.  The `type`, `category` and `code` fields of
the source dicts; `message` and `location` are elided. -/
structure Issue where
  itype : String
  category : String
  code : String
deriving Repr, DecidableEq

/-! ### Scoring rules -/

/-- `_validate_preflight_compliance`: −30 when the primary anchor is not
among the extracted links (anchor-category issue), −10 when the word
count misses the target by more than 20%. -/
def validatePreflightCompliance (a : ArticleData) (m : PreflightMatrix) :
    Int × List Issue :=
  let anchorMiss := ¬ a.links.contains m.anchorPlan.primary
  let target := m.wordCount.getD 800
  let wordDiff := ((a.wordCount : Int) - (target : Int)).natAbs
  -- `word_diff > target_word_count * 0.2` of the source, in exact
  -- integer form (both sides scaled by 5); for integer operands the
  -- IEEE product `target * 0.2` never crosses an integer, so the
  -- comparison agrees with the source.
  let wordMiss := 5 * wordDiff > target
  (100 - (if anchorMiss then 30 else 0) - (if wordMiss then 10 else 0),
   (if anchorMiss then [⟨"error", "anchor", "MISSING_PRIMARY_ANCHOR"⟩] else [])
     ++ (if wordMiss then [⟨"warning", "content", "WORD_COUNT_MISMATCH"⟩] else []))

/-- `_validate_draft_quality`: −20 below 3 sections, −10 per empty
section. -/
def validateDraftQuality (a : ArticleData) : Int × List Issue :=
  let tooFew := a.sections.length < 3
  let empties := a.sections.filter (fun s => s.paragraphs.isEmpty)
  ((if tooFew then (80 : Int) else 100) - 10 * (empties.length : Int),
   (if tooFew then [⟨"warning", "structure", "INSUFFICIENT_SECTIONS"⟩] else [])
     ++ empties.map (fun _ => ⟨"warning", "structure", "EMPTY_SECTION"⟩))

/-- The anchor-location scan of `_validate_anchor_placement`: for every
paragraph flagged `has_link`, the inner loop over all extracted links
overwrites the location when the primary anchor is among them, so the
final location is the last `has_link` paragraph (section index,
1-based paragraph index), present only when the anchor is a link text. -/
def anchorSearch (anchor : String) (links : List String)
    (secs : List ArticleSection) : Option (Nat × Nat) :=
  secs.enum.foldl
    (fun acc (si, sec) =>
      sec.paragraphs.enum.foldl
        (fun acc2 (pi, p) =>
          if p.hasLink && links.contains anchor then some (si, pi + 1) else acc2)
        acc)
    none

/-- `_validate_anchor_placement`.  The source returns inside the section
loop at the first section whose title contains the anchor; earlier
iterations only update local search state, so the early return is
equivalently a `find?` over the section titles. -/
def validateAnchorPlacement (a : ArticleData) (m? : Option PreflightMatrix) :
    Int × List Issue :=
  match m? with
  | none => (70, [])
  | some m =>
    let anchor := m.anchorPlan.primary
    match a.sections.find? (fun s => strIn anchor s.title) with
    | some _ => (0, [⟨"error", "anchor", "ANCHOR_IN_HEADER"⟩])
    | none =>
      match anchorSearch anchor a.links a.sections with
      | none => (0, [⟨"error", "anchor", "ANCHOR_NOT_FOUND"⟩])
      | some (si, para) =>
        let middle := a.sections.length / 2
        let placeWrong := m.anchorPlan.placement.sectionKey = "mittpunkt"
          ∧ ((si : Int) - (middle : Int)).natAbs > 1
        let tooDeep := para > 5
        (100 - (if placeWrong then 20 else 0) - (if tooDeep then 15 else 0),
         (if placeWrong then [⟨"warning", "anchor", "ANCHOR_PLACEMENT_WRONG"⟩] else [])
           ++ (if tooDeep then [⟨"warning", "anchor", "ANCHOR_TOO_DEEP"⟩] else []))

/-! ### The credible-citation patterns of `_validate_trust_signals`

The four regexes are modelled as scanners: `matchAt` tests a match
starting at the head of the suffix, `scanHit` tries every suffix
(`re.search`). -/

/-- Consumes a literal, returning the remaining characters. -/
def eatLit : List Char → List Char → Option (List Char)
  | [], rest => some rest
  | _ :: _, [] => none
  | c :: cs, d :: ds => if c = d then eatLit cs ds else none

/-- Consumes one or more characters satisfying `p` (greedy, as the
regexes' `\s+`/`\w+` are never forced to backtrack here because the
following literal never satisfies `p`). -/
def eatMany1 (p : Char → Bool) (cs : List Char) : Option (List Char) :=
  if (cs.takeWhile p).isEmpty then none else some (cs.dropWhile p)

/-- `enligt\s+\w+\.(se|com|org)` anchored at the head. -/
def matchEnligtAt (cs : List Char) : Bool :=
  (eatLit "enligt".data cs |>.bind (eatMany1 isSpaceChar)
    |>.bind (eatMany1 isWordChar) |>.bind (eatLit ['.'])
    |>.bind (fun r =>
      match eatLit "se".data r with
      | some r2 => some r2
      | none =>
        match eatLit "com".data r with
        | some r2 => some r2
        | none => eatLit "org".data r)).isSome

/-- `rapporterar\s+\w+` anchored at the head. -/
def matchRapporterarAt (cs : List Char) : Bool :=
  (eatLit "rapporterar".data cs |>.bind (eatMany1 isSpaceChar)
    |>.bind (eatMany1 isWordChar)).isSome

/-- `studier\s+från` anchored at the head. -/
def matchStudierAt (cs : List Char) : Bool :=
  (eatLit "studier".data cs |>.bind (eatMany1 isSpaceChar)
    |>.bind (eatLit "från".data)).isSome

/-- `forskning\s+visar` anchored at the head. -/
def matchForskningAt (cs : List Char) : Bool :=
  (eatLit "forskning".data cs |>.bind (eatMany1 isSpaceChar)
    |>.bind (eatLit "visar".data)).isSome

/-- `re.search`: try the pattern at every suffix. -/
def scanHit (p : List Char → Bool) : List Char → Bool
  | [] => p []
  | c :: cs => p (c :: cs) || scanHit p cs

/-- `any(re.search(pattern, article_lower) for pattern in
credible_patterns)`. -/
def credibleHit (low : List Char) : Bool :=
  scanHit matchEnligtAt low || scanHit matchRapporterarAt low
    || scanHit matchStudierAt low || scanHit matchForskningAt low

/-- Whether one required trust source is satisfied by the lowered text. -/
def trustSourceHit (low : String) (ts : TrustSource) : Bool :=
  if ts.domain = "PLATSFÖRSLAG" then credibleHit low.data
  else strIn (lowerStr ts.domain) low

/-- `_validate_trust_signals`. -/
def validateTrustSignals (a : ArticleData) (m? : Option PreflightMatrix) :
    Int × List Issue :=
  match m? with
  | none => (70, [])
  | some m =>
    match m.trust with
    | none => (70, [])
    | some req =>
      let low := lowerStr a.fullText
      let found := req.countP (fun ts => trustSourceHit low ts)
      if found < 1 then
        (0, [⟨"error", "trust", "MISSING_TRUST_SIGNALS"⟩])
      else if found < req.length then
        (100 - 20 * ((req.length : Int) - (found : Int)),
         [⟨"warning", "trust", "INSUFFICIENT_TRUST_SIGNALS"⟩])
      else (100, [])

/-! ### Topical-term (LSI) rule -/

/-- The flattened, lowered sentence sequence of the whole document. -/
def allSentencesLower (a : ArticleData) : List String :=
  ((a.sections.map (fun s => (s.paragraphs.map (·.sentences)).flatten)).flatten).map
    lowerStr

/-- The anchor-sentence search of `_validate_lsi_terms`: the loop
overwrites the index on every sentence containing the anchor, so it ends
at the last match. -/
def lastIdxGo (p : String → Bool) :
    List String → Nat → Option Nat → Option Nat
  | [], _, acc => acc
  | s :: rest, i, acc => lastIdxGo p rest (i + 1) (if p s then some i else acc)

/-- Index of the last list entry satisfying `p`, if any. -/
def lastIdxWith (p : String → Bool) (l : List String) : Option Nat :=
  lastIdxGo p l 0 none

/-- The windowed term count and verdict of `_validate_lsi_terms`, given
the chosen center index. -/
def lsiWindowScore (cfg : LsiWindow) (sents : List String) (idx : Nat) :
    Int × List Issue :=
  let r := cfg.policy.radiusSentences
  let ws := idx - r
  let we := min sents.length (idx + r + 1)
  let windowText := joinWithSpace ((sents.drop ws).take (we - ws))
  let found := cfg.terms.filter (fun t => strIn (lowerStr t) windowText)
  if found.length < cfg.policy.minCount then
    (0, [⟨"error", "lsi", "INSUFFICIENT_LSI_TERMS"⟩])
  else if found.length > cfg.policy.maxCount then
    (90, [⟨"warning", "lsi", "EXCESSIVE_LSI_TERMS"⟩])
  else (100, [])

/-- `_validate_lsi_terms`. -/
def validateLsiTerms (a : ArticleData) (m? : Option PreflightMatrix) :
    Int × List Issue :=
  match m? with
  | none => (70, [])
  | some m =>
    match m.lsiNearWindow with
    | none => (70, [])
    | some cfg =>
      let anchorLow := lowerStr m.anchorPlan.primary
      let sents := allSentencesLower a
      match lastIdxWith (fun s => strIn anchorLow s) sents with
      | none => (0, [⟨"error", "lsi", "ANCHOR_NOT_FOUND_FOR_LSI"⟩])
      | some idx => lsiWindowScore cfg sents idx

/-! ### Voice fit and compliance rules -/

/-- The fixed promotional-phrase list of `_validate_voice_fit`. -/
def promoPhrases : List String :=
  ["bästa", "fantastisk", "otrolig", "missa inte", "unikt erbjudande"]

/-- `_validate_voice_fit`: baseline 90; `promo_count` is the number of
listed phrases occurring in the lowered text (each phrase counted at most
once); more than 3 deducts 20. -/
def validateVoiceFit (a : ArticleData) (_m? : Option PreflightMatrix) :
    Int × List Issue :=
  let low := lowerStr a.fullText
  let promoCount := promoPhrases.countP (fun ph => strIn ph low)
  if promoCount > 3 then
    (70, [⟨"warning", "content", "OVERLY_PROMOTIONAL"⟩])
  else (90, [])

def gamblingDisclaimers : List String :=
  ["spela ansvarsfullt", "18+", "spelpaus.se", "stodlinjen"]

def financeDisclaimers : List String :=
  ["inte finansiell rådgivning", "konsultera", "professionell rådgivare"]

def healthDisclaimers : List String :=
  ["inte medicinsk rådgivning", "konsultera läkare", "professionell medicinsk"]

/-- Whether the required disclaimer category is satisfied; categories
other than the three known ones are never satisfied. -/
def disclaimerFound (compType : String) (low : String) : Bool :=
  if compType = "gambling" then
    gamblingDisclaimers.any (fun d => strIn d low)
  else if compType = "finance" then
    financeDisclaimers.any (fun d => strIn d low)
  else if compType = "health" then
    healthDisclaimers.any (fun d => strIn d low)
  else false

/-- `_validate_compliance`: any missing category forces the score to 0
and emits one `MISSING_<CATEGORY>_DISCLAIMER` issue per missing
category. -/
def validateCompliance (a : ArticleData) (m? : Option PreflightMatrix) :
    Int × List Issue :=
  match m? with
  | none => (100, [])
  | some m =>
    if m.guardsCompliance.isEmpty then (100, [])
    else
      let low := lowerStr a.fullText
      let missing := m.guardsCompliance.filter
        (fun ct => ¬ disclaimerFound ct low)
      if missing.isEmpty then (100, [])
      else
        (0, missing.map (fun ct =>
          ⟨"error", "compliance", "MISSING_" ++ upperStr ct ++ "_DISCLAIMER"⟩))

/-! ### The orchestrator (`QCValidator.validate`) -/

/-- The seven category scores (`scores` dict / `breakdown`). -/
structure Scores where
  preflight : Int
  draft : Int
  anchor : Int
  trust : Int
  lsi : Int
  fit : Int
  compliance : Int
deriving Repr, DecidableEq

/-- The weighted composite before rounding, with the weights of
`self.thresholds["weights"]`. -/
def composite (s : Scores) : ℚ :=
  (s.preflight : ℚ) * 0.25 + (s.draft : ℚ) * 0.15 + (s.anchor : ℚ) * 0.20
    + (s.trust : ℚ) * 0.15 + (s.lsi : ℚ) * 0.15 + (s.fit : ℚ) * 0.05
    + (s.compliance : ℚ) * 0.05

/-- Round half to even (the semantics of Python's `round`), exactly on
rationals. -/
def roundHalfEven (q : ℚ) : Int :=
  let f := ⌊q⌋
  let r := q - f
  if r < 1 / 2 then f
  else if r > 1 / 2 then f + 1
  else if f % 2 = 0 then f else f + 1

/-- Python `round(x, 1)`. -/
def round1 (q : ℚ) : ℚ := (roundHalfEven (10 * q) : ℚ) / 10

/-- The status decision: `approved_min = 85`, `light_edits_min = 70`. -/
def statusOf (total : ℚ) : String :=
  if 85 ≤ total then "APPROVED"
  else if 70 ≤ total then "LIGHT_EDITS"
  else "BLOCKED"

/-- One auto-fix log entry. -/
structure AutoFix where
  ftype : String
  description : String
  applied : Bool
deriving Repr, DecidableEq

/-- The validation result.  `recommendations`, `human_signoff_required`
and `next_actions` are elided (purely informational, no claim mentions
them). -/
structure ValidationResult where
  status : String
  score : ℚ
  breakdown : Scores
  issues : List Issue
  autoFixes : List AutoFix
deriving Repr, DecidableEq

/-- Runs the seven rules in source order, collecting scores and the
concatenated issue list.  Without a matrix the preflight score defaults
to 50 with no issues. -/
def issuesAndScores (text : String) (m? : Option PreflightMatrix) :
    Scores × List Issue :=
  let a := parseArticle text
  let pre := match m? with
    | some m => validatePreflightCompliance a m
    | none => ((50 : Int), ([] : List Issue))
  let dr := validateDraftQuality a
  let an := validateAnchorPlacement a m?
  let tr := validateTrustSignals a m?
  let ls := validateLsiTerms a m?
  let fi := validateVoiceFit a m?
  let co := validateCompliance a m?
  (⟨pre.1, dr.1, an.1, tr.1, ls.1, fi.1, co.1⟩,
   pre.2 ++ dr.2 ++ an.2 ++ tr.2 ++ ls.2 ++ fi.2 ++ co.2)

/-- One pure scoring pass: the body of `validate` without the auto-fix
branch (equally, a call with `auto_fix=False`).  The `auto_fixes` list of
every returned result is the initial empty list: fixes are only appended
on the path that discards the result and re-validates. -/
def validateResult (text : String) (m? : Option PreflightMatrix) :
    ValidationResult :=
  let si := issuesAndScores text m?
  let total := round1 (composite si.1)
  { status := statusOf total
    score := total
    breakdown := si.1
    issues := si.2
    autoFixes := [] }

/-- The disclaimer string appended by the gambling auto-fix. -/
def gamblingDisclaimerText : String :=
  "\n\n*Spela ansvarsfullt. Läs mer om spelansvar på spelpaus.se. 18+ årsgräns.*"

/-- The issue loop of `_attempt_auto_fix`: the first matching
gambling-disclaimer issue appends the disclaimer and breaks; LSI-term
issues log a non-applied fix and continue. -/
def autoFixGo (text : String) (hasMatrix : Bool) :
    List Issue → List AutoFix → String × List AutoFix
  | [], acc => (text, acc)
  | i :: rest, acc =>
    if i.code = "MISSING_GAMBLING_DISCLAIMER" ∧ hasMatrix then
      (text ++ gamblingDisclaimerText,
       acc ++ [⟨"add_disclaimer", "Added gambling responsibility disclaimer", true⟩])
    else if i.code = "INSUFFICIENT_LSI_TERMS" ∧ hasMatrix then
      autoFixGo text hasMatrix rest
        (acc ++ [⟨"inject_lsi", "Would inject LSI terms near anchor", false⟩])
    else autoFixGo text hasMatrix rest acc

/-- `QCValidator._attempt_auto_fix`. -/
def attemptAutoFix (text : String) (issues : List Issue) (hasMatrix : Bool) :
    String × List AutoFix :=
  autoFixGo text hasMatrix issues []

/-- The mutable instance state: `self.auto_fix_attempts`
(`__init__` sets it to 0; `self.max_auto_fixes` is the constant 1). -/
structure QCValidator where
  autoFixAttempts : Nat
deriving Repr, DecidableEq

def maxAutoFixes : Nat := 1

/-- `QCValidator.validate`, with the single bounded re-validation
unrolled: when the auto-fix changes the text, the source increments the
attempt counter, discards the current result (including the extended
`auto_fixes` list) and returns the result of re-validating the fixed
text with `auto_fix=False`, which is exactly `validateResult`. -/
def validate (v : QCValidator) (text : String) (m? : Option PreflightMatrix)
    (autoFix : Bool) : QCValidator × ValidationResult :=
  if autoFix = true ∧ v.autoFixAttempts < maxAutoFixes then
    if (attemptAutoFix text (validateResult text m?).issues m?.isSome).1 ≠ text then
      (⟨v.autoFixAttempts + 1⟩,
       validateResult (attemptAutoFix text (validateResult text m?).issues m?.isSome).1 m?)
    else (v, validateResult text m?)
  else (v, validateResult text m?)

/-- Whether a given call takes the applied-fix path (the text is changed
by the auto-fix and the attempt counter is consumed). -/
def appliedFix (v : QCValidator) (text : String) (m? : Option PreflightMatrix)
    (autoFix : Bool) : Prop :=
  autoFix = true ∧ v.autoFixAttempts < maxAutoFixes
    ∧ (attemptAutoFix text (validateResult text m?).issues m?.isSome).1 ≠ text

instance (v : QCValidator) (text : String) (m? : Option PreflightMatrix)
    (autoFix : Bool) : Decidable (appliedFix v text m? autoFix) := by
  unfold appliedFix; infer_instance

/-- One call against a validator instance. -/
structure QCCall where
  text : String
  matrix : Option PreflightMatrix
  autoFix : Bool

/-- The number of calls of a call sequence, threaded through one
validator instance, on which an auto-fix is applied (a disclaimer is
appended). -/
def countFixesApplied : QCValidator → List QCCall → Nat
  | _, [] => 0
  | v, c :: cs =>
    (if appliedFix v c.text c.matrix c.autoFix then 1 else 0)
      + countFixesApplied (validate v c.text c.matrix c.autoFix).1 cs

/-! ### Preflight Builder (`preflight_build.py`): topical terms and trust
sources

The two non-deterministic inputs of `_generate_lsi_terms` — the
set-then-shuffle reordering of the deduplicated pool and the
`random.randint(6, 10)` draw — enter as parameters; likewise the registry
rows (or `none` for a missing/failed database) of
`_select_trust_sources`. -/

/-- Terms added when the topic or publication domain is genealogical. -/
def genealogyLsiTerms : List String :=
  ["forskning", "källor", "arkiv", "dokument",
   "historia", "familj", "anor", "kyrkoböcker"]

/-- Terms added when the target URL is a casino. -/
def casinoLsiTerms : List String :=
  ["underhållning", "spel", "avkoppling", "fritid",
   "pausaktivitet", "digital", "online", "nöje"]

/-- The generic research/analysis tail, always added. -/
def genericLsiTerms : List String :=
  ["metod", "analys", "tips", "guide", "strategi",
   "verktyg", "process", "resultat"]

/-- The pooled `lsi_terms` list of `_generate_lsi_terms` before
deduplication. -/
def lsiTermPool (topic publicationDomain targetUrl : String) : List String :=
  (if strIn "släktforskning" (lowerStr topic) || strIn "genealogi" publicationDomain
   then genealogyLsiTerms else [])
    ++ (if strIn "casino" (lowerStr targetUrl) then casinoLsiTerms else [])
    ++ genericLsiTerms

/-- `_generate_lsi_terms` after the draws: `shuffled` stands for
`list(set(lsi_terms))` after `random.shuffle` (any duplicate-free
reordering of the pool) and `k` for `random.randint(6, 10)`. -/
def generateLsiTerms (shuffled : List String) (k : Nat) : List String :=
  shuffled.take k

/-- One row of the `trust_registry` query. -/
structure RegistryRow where
  domain : String
  trustLevel : String
  rowPattern : String
deriving Repr, DecidableEq

/-- `_get_trust_rationale`. -/
def getTrustRationale (_domain rowPattern : String) : String :=
  if rowPattern = "government" then "Officiell myndighet med hög trovärdighet"
  else if rowPattern = "news" then "Etablerad nyhetskälla med redaktionell granskning"
  else if rowPattern = "encyclopedia" then "Omfattande kunskapskälla med många bidragsgivare"
  else if rowPattern = "academic" then "Akademisk källa med vetenskaplig grund"
  else "Erkänd källa inom området"

/-- `_select_trust_sources`: up to 2 registry rows (`none` models a
missing connection or a query failure, both leaving the list empty),
then the topic-keyed fallback when none were found. -/
def selectTrustSources (topic publicationDomain : String)
    (dbRows : Option (List RegistryRow)) : List TrustSource :=
  let fromDb := match dbRows with
    | none => []
    | some rows =>
      (rows.take 2).map (fun r =>
        ⟨r.domain, r.trustLevel, getTrustRationale r.domain r.rowPattern⟩)
  if fromDb.length < 1 then
    if strIn "släkt" (lowerStr topic) || strIn "genealogi" publicationDomain then
      fromDb ++ [⟨"riksarkivet.se", "T1", "Officiell svensk myndighet för arkivfrågor"⟩]
    else
      fromDb ++ [⟨"PLATSFÖRSLAG", "T2", "Välj en relevant branschkälla eller nyhetssajt"⟩]
  else fromDb

/-- The fixed window policy written into every built matrix. -/
def builtWindowPolicy : WindowPolicy :=
  { minCount := 6, maxCount := 10, radiusSentences := 2, maxRepeat := 2 }

/-- The validator-facing fields of the matrix assembled by `build`:
`lsi_near_window` and `trust` are filled from the two generators. -/
def buildMatrixCore (anchorPlan : AnchorPlan) (compliance : List String)
    (lsiTerms : List String) (trustSources : List TrustSource) :
    PreflightMatrix :=
  { anchorPlan := anchorPlan
    wordCount := none
    lsiNearWindow := some { policy := builtWindowPolicy, terms := lsiTerms }
    trust := some trustSources
    guardsCompliance := compliance }

/-! ## Helper lemmas about the orchestrator -/

/-- Every return path of `validate` hands back a pure scoring pass over
some text (the given one, or the auto-fixed one). -/
theorem validate_snd_eq (v : QCValidator) (text : String)
    (m? : Option PreflightMatrix) (autoFix : Bool) :
    ∃ t2, (validate v text m? autoFix).2 = validateResult t2 m? := by
  unfold validate
  split
  · split
    · exact ⟨_, rfl⟩
    · exact ⟨text, rfl⟩
  · exact ⟨text, rfl⟩

theorem validateResult_status_eq (text : String) (m? : Option PreflightMatrix) :
    (validateResult text m?).status = statusOf (validateResult text m?).score := rfl

theorem validateResult_score_eq (text : String) (m? : Option PreflightMatrix) :
    (validateResult text m?).score
      = round1 (composite (validateResult text m?).breakdown) := rfl

theorem validateResult_autoFixes_nil (text : String)
    (m? : Option PreflightMatrix) : (validateResult text m?).autoFixes = [] := rfl

/-! ## Claim C1 -/

/-- Claim C1 (confirmed): for every validation call the returned status
is the deterministic threshold function of the returned composite score
(≥85 APPROVED, ≥70 LIGHT_EDITS, else BLOCKED), and the boundaries are
exact: 85.0 maps to APPROVED, 84.9 and 70.0 to LIGHT_EDITS, 69.9 to
BLOCKED. -/
theorem c1_status_from_composite :
    (∀ (v : QCValidator) (text : String) (m? : Option PreflightMatrix)
        (autoFix : Bool),
      ((validate v text m? autoFix).2).status
        = statusOf ((validate v text m? autoFix).2).score)
    ∧ (∀ q : ℚ, (85 ≤ q → statusOf q = "APPROVED")
        ∧ (70 ≤ q → q < 85 → statusOf q = "LIGHT_EDITS")
        ∧ (q < 70 → statusOf q = "BLOCKED"))
    ∧ statusOf 85 = "APPROVED" ∧ statusOf 84.9 = "LIGHT_EDITS"
    ∧ statusOf 70 = "LIGHT_EDITS" ∧ statusOf 69.9 = "BLOCKED" := by
  refine ⟨?_, ?_, ?_, ?_, ?_, ?_⟩
  · intro v text m? af
    obtain ⟨t2, h⟩ := validate_snd_eq v text m? af
    rw [h]
    exact validateResult_status_eq t2 m?
  · intro q
    refine ⟨fun h => ?_, fun h70 h85 => ?_, fun h => ?_⟩
    · simp [statusOf, h]
    · rw [statusOf, if_neg (by linarith), if_pos h70]
    · rw [statusOf, if_neg (by linarith), if_neg (by linarith)]
  · norm_num [statusOf]
  · norm_num [statusOf]
  · norm_num [statusOf]
  · norm_num [statusOf]

/-- Witness for C1 at concrete composite values. -/
theorem c1_status_witness :
    statusOf 90 = "APPROVED" ∧ statusOf 75 = "LIGHT_EDITS"
      ∧ statusOf 10 = "BLOCKED" :=
  ⟨(c1_status_from_composite.2.1 90).1 (by norm_num),
   (c1_status_from_composite.2.1 75).2.1 (by norm_num) (by norm_num),
   (c1_status_from_composite.2.1 10).2.2 (by norm_num)⟩

/-! ## Claim C10 -/

/-- Claim C10 (confirmed): whenever the auto-fix changes the article
text, the result returned to the caller has an empty `auto_fixes` list
(the record of the applied fix is discarded by the fresh re-validation
pass).  In fact every result of `validate` carries the empty list, since
fixes are only ever appended on the path that discards its result. -/
theorem c10_auto_fixes_discarded :
    ∀ (v : QCValidator) (text : String) (m? : Option PreflightMatrix)
      (autoFix : Bool),
      appliedFix v text m? autoFix →
      ((validate v text m? autoFix).2).autoFixes = [] := by
  intro v text m? af _h
  obtain ⟨t2, h⟩ := validate_snd_eq v text m? af
  rw [h]
  exact validateResult_autoFixes_nil t2 m?

/-- A concrete plan demanding a gambling disclaimer. -/
def fixDemoMatrix : PreflightMatrix :=
  { anchorPlan := ⟨"casino", ⟨"mittpunkt", 2⟩⟩
    wordCount := none
    lsiNearWindow := none
    trust := none
    guardsCompliance := ["gambling"] }

/-- A concrete article lacking the gambling disclaimer. -/
def fixDemoText : String := "## Guide\nBesök [[casino]] för spel."

/-- Witness for C10: on the demo call the fix is applied and the result
still reports no auto-fixes. -/
theorem c10_auto_fixes_witness :
    appliedFix ⟨0⟩ fixDemoText (some fixDemoMatrix) true
    ∧ ((validate ⟨0⟩ fixDemoText (some fixDemoMatrix) true).2).autoFixes = [] :=
  ⟨by decide, c10_auto_fixes_discarded ⟨0⟩ fixDemoText (some fixDemoMatrix) true
      (by decide)⟩

/-! ## Claim C3 -/

/-- The auto-fix loop either leaves the text unchanged or appends
exactly one copy of the gambling disclaimer. -/
theorem autoFixGo_fst (text : String) (hm : Bool) :
    ∀ (issues : List Issue) (acc : List AutoFix),
      (autoFixGo text hm issues acc).1 = text
        ∨ (autoFixGo text hm issues acc).1 = text ++ gamblingDisclaimerText := by
  intro issues
  induction issues with
  | nil => intro acc; left; rfl
  | cons i rest ih =>
    intro acc
    unfold autoFixGo
    split
    · right; rfl
    · split
      · exact ih _
      · exact ih _

/-- The attempt counter advances exactly on applied fixes. -/
theorem validate_fst_attempts (v : QCValidator) (text : String)
    (m? : Option PreflightMatrix) (autoFix : Bool) :
    (validate v text m? autoFix).1.autoFixAttempts
      = if appliedFix v text m? autoFix then v.autoFixAttempts + 1
        else v.autoFixAttempts := by
  unfold validate appliedFix
  by_cases h1 : autoFix = true ∧ v.autoFixAttempts < maxAutoFixes
  · rw [if_pos h1]
    by_cases h2 :
        (attemptAutoFix text (validateResult text m?).issues m?.isSome).1 ≠ text
    · rw [if_pos h2, if_pos ⟨h1.1, h1.2, h2⟩]
    · rw [if_neg h2, if_neg (fun hc => h2 hc.2.2)]
  · rw [if_neg h1, if_neg (fun hc => h1 ⟨hc.1, hc.2.1⟩)]

/-- An applied fix returns the incremented counter and the fresh scoring
of the text with the disclaimer appended. -/
theorem validate_applied_eq (v : QCValidator) (text : String)
    (m? : Option PreflightMatrix) (autoFix : Bool)
    (h : appliedFix v text m? autoFix) :
    validate v text m? autoFix
      = (⟨v.autoFixAttempts + 1⟩,
         validateResult (text ++ gamblingDisclaimerText) m?) := by
  obtain ⟨h1, h2, h3⟩ := h
  have hfix : (attemptAutoFix text (validateResult text m?).issues m?.isSome).1
      = text ++ gamblingDisclaimerText := by
    unfold attemptAutoFix
    rcases autoFixGo_fst text m?.isSome (validateResult text m?).issues [] with
      hc | hc
    · exact absurd hc h3
    · exact hc
  unfold validate
  rw [if_pos ⟨h1, h2⟩, if_pos h3, hfix]

/-- A spent budget makes a requested auto-fix a no-op: the call scores
the given text as-is and leaves the instance state unchanged. -/
theorem validate_spent_eq (v : QCValidator) (text : String)
    (m? : Option PreflightMatrix) (h : 1 ≤ v.autoFixAttempts) :
    validate v text m? true = (v, validateResult text m?) := by
  unfold validate
  rw [if_neg]
  intro hc
  have h2 := hc.2
  unfold maxAutoFixes at h2
  omega

/-- No fix is ever applied once the counter is positive. -/
theorem countFixesApplied_spent :
    ∀ (cs : List QCCall) (v : QCValidator), 1 ≤ v.autoFixAttempts →
      countFixesApplied v cs = 0 := by
  intro cs
  induction cs with
  | nil => intro v _; rfl
  | cons c rest ih =>
    intro v hv
    unfold countFixesApplied
    have hnap : ¬ appliedFix v c.text c.matrix c.autoFix := by
      intro hc
      have h2 := hc.2.1
      unfold maxAutoFixes at h2
      omega
    rw [if_neg hnap]
    have hst : (validate v c.text c.matrix c.autoFix).1.autoFixAttempts
        = v.autoFixAttempts := by
      rw [validate_fst_attempts, if_neg hnap]
    rw [ih (validate v c.text c.matrix c.autoFix).1 (by rw [hst]; exact hv)]

/-- At most one fix is applied over any call sequence. -/
theorem countFixesApplied_le_one :
    ∀ (cs : List QCCall) (v : QCValidator), countFixesApplied v cs ≤ 1 := by
  intro cs
  induction cs with
  | nil => intro v; simp [countFixesApplied]
  | cons c rest ih =>
    intro v
    unfold countFixesApplied
    by_cases hap : appliedFix v c.text c.matrix c.autoFix
    · rw [if_pos hap]
      have hst : (validate v c.text c.matrix c.autoFix).1.autoFixAttempts
          = v.autoFixAttempts + 1 := by
        rw [validate_fst_attempts, if_pos hap]
      rw [countFixesApplied_spent rest _ (by rw [hst]; omega)]
    · rw [if_neg hap]
      simpa using ih (validate v c.text c.matrix c.autoFix).1

/-- Claim C3 (confirmed): across the lifetime of one validator instance
(counter starting at 0) at most one call ever has its auto-fix applied;
each applied fix appends exactly one disclaimer string (the returned
result is the fresh scoring of `text ++ disclaimer`); and once the
budget is spent, a further call with `auto_fix` requested leaves the
article text unchanged, scores it as-is and keeps the state. -/
theorem c3_auto_fix_budget :
    (∀ cs : List QCCall, countFixesApplied ⟨0⟩ cs ≤ 1)
    ∧ (∀ (v : QCValidator) (text : String) (m? : Option PreflightMatrix)
        (autoFix : Bool), appliedFix v text m? autoFix →
        validate v text m? autoFix
          = (⟨v.autoFixAttempts + 1⟩,
             validateResult (text ++ gamblingDisclaimerText) m?))
    ∧ (∀ (v : QCValidator) (text : String) (m? : Option PreflightMatrix),
        1 ≤ v.autoFixAttempts →
        validate v text m? true = (v, validateResult text m?)) :=
  ⟨fun cs => countFixesApplied_le_one cs ⟨0⟩,
   validate_applied_eq, validate_spent_eq⟩

/-- Witness for C3: the demo call applies the fix once and a spent
budget scores as-is. -/
theorem c3_auto_fix_budget_witness :
    countFixesApplied ⟨0⟩ [] ≤ 1
    ∧ validate ⟨0⟩ fixDemoText (some fixDemoMatrix) true
        = (⟨1⟩, validateResult (fixDemoText ++ gamblingDisclaimerText)
            (some fixDemoMatrix))
    ∧ validate ⟨1⟩ "text" none true = (⟨1⟩, validateResult "text" none) :=
  ⟨c3_auto_fix_budget.1 [],
   c3_auto_fix_budget.2.1 ⟨0⟩ fixDemoText (some fixDemoMatrix) true (by decide),
   c3_auto_fix_budget.2.2 ⟨1⟩ "text" none (by norm_num)⟩

/-! ## Claim C4 -/

theorem validatePreflightCompliance_le (a : ArticleData) (m : PreflightMatrix) :
    (validatePreflightCompliance a m).1 ≤ 100 := by
  unfold validatePreflightCompliance
  dsimp only
  split <;> split <;> norm_num

theorem validateDraftQuality_le (a : ArticleData) :
    (validateDraftQuality a).1 ≤ 100 := by
  unfold validateDraftQuality
  dsimp only
  split <;> omega

theorem validateAnchorPlacement_le (a : ArticleData)
    (m? : Option PreflightMatrix) :
    (validateAnchorPlacement a m?).1 ≤ 100 := by
  unfold validateAnchorPlacement
  split
  · norm_num
  · dsimp only
    split
    · norm_num
    · split
      · norm_num
      · dsimp only
        split <;> split <;> norm_num

theorem validateTrustSignals_le (a : ArticleData)
    (m? : Option PreflightMatrix) :
    (validateTrustSignals a m?).1 ≤ 100 := by
  unfold validateTrustSignals
  split
  · norm_num
  · split
    · norm_num
    · dsimp only
      split
      · norm_num
      · split
        · rename_i req _ _ _
          have hle := List.countP_le_length
            (fun ts => trustSourceHit (lowerStr a.fullText) ts) (l := req)
          omega
        · norm_num

theorem lsiWindowScore_le (cfg : LsiWindow) (sents : List String) (idx : Nat) :
    (lsiWindowScore cfg sents idx).1 ≤ 100 := by
  unfold lsiWindowScore
  dsimp only
  split
  · norm_num
  · split <;> norm_num

theorem validateLsiTerms_le (a : ArticleData) (m? : Option PreflightMatrix) :
    (validateLsiTerms a m?).1 ≤ 100 := by
  unfold validateLsiTerms
  split
  · norm_num
  · split
    · norm_num
    · dsimp only
      split
      · norm_num
      · exact lsiWindowScore_le _ _ _

theorem validateVoiceFit_le (a : ArticleData) (m? : Option PreflightMatrix) :
    (validateVoiceFit a m?).1 ≤ 100 := by
  unfold validateVoiceFit
  dsimp only
  split <;> norm_num

theorem validateCompliance_le (a : ArticleData) (m? : Option PreflightMatrix) :
    (validateCompliance a m?).1 ≤ 100 := by
  unfold validateCompliance
  split
  · norm_num
  · split
    · norm_num
    · dsimp only
      split <;> norm_num

/-- The weights sum to 1, so seven scores each at most 100 give a
composite at most 100. -/
theorem composite_le (s : Scores)
    (hp : s.preflight ≤ 100) (hd : s.draft ≤ 100) (ha : s.anchor ≤ 100)
    (ht : s.trust ≤ 100) (hl : s.lsi ≤ 100) (hf : s.fit ≤ 100)
    (hc : s.compliance ≤ 100) : composite s ≤ 100 := by
  unfold composite
  have hp' : (s.preflight : ℚ) ≤ 100 := by exact_mod_cast hp
  have hd' : (s.draft : ℚ) ≤ 100 := by exact_mod_cast hd
  have ha' : (s.anchor : ℚ) ≤ 100 := by exact_mod_cast ha
  have ht' : (s.trust : ℚ) ≤ 100 := by exact_mod_cast ht
  have hl' : (s.lsi : ℚ) ≤ 100 := by exact_mod_cast hl
  have hf' : (s.fit : ℚ) ≤ 100 := by exact_mod_cast hf
  have hc' : (s.compliance : ℚ) ≤ 100 := by exact_mod_cast hc
  linarith

theorem issuesAndScores_composite_le (text : String)
    (m? : Option PreflightMatrix) :
    composite (issuesAndScores text m?).1 ≤ 100 := by
  unfold issuesAndScores
  apply composite_le <;> dsimp only
  · split
    · exact validatePreflightCompliance_le _ _
    · norm_num
  · exact validateDraftQuality_le _
  · exact validateAnchorPlacement_le _ _
  · exact validateTrustSignals_le _ _
  · exact validateLsiTerms_le _ _
  · exact validateVoiceFit_le _ _
  · exact validateCompliance_le _ _

/-- Round half to even never exceeds the ceiling. -/
theorem roundHalfEven_le_ceil (x : ℚ) : roundHalfEven x ≤ ⌈x⌉ := by
  unfold roundHalfEven
  by_cases h1 : x - ⌊x⌋ < 1 / 2
  · rw [if_pos h1]
    exact Int.floor_le_ceil x
  · rw [if_neg h1]
    have hx : (⌊x⌋ : ℚ) < x := by
      have h2 := Int.floor_le x
      have h3 : (1 : ℚ) / 2 ≤ x - ⌊x⌋ := not_lt.mp h1
      linarith
    have hceil : ⌊x⌋ + 1 ≤ ⌈x⌉ := by
      have := Int.lt_ceil.mpr hx
      omega
    by_cases h2 : x - ⌊x⌋ > 1 / 2
    · rw [if_pos h2]
      exact hceil
    · rw [if_neg h2]
      by_cases h3 : ⌊x⌋ % 2 = 0
      · rw [if_pos h3]
        exact le_trans (by omega) hceil
      · rw [if_neg h3]
        exact hceil

theorem round1_le_100 {q : ℚ} (h : q ≤ 100) : round1 q ≤ 100 := by
  unfold round1
  have h10 : (10 : ℚ) * q ≤ 1000 := by linarith
  have hceil : ⌈(10 : ℚ) * q⌉ ≤ 1000 := Int.ceil_le.mpr (by exact_mod_cast h10)
  have hr := roundHalfEven_le_ceil ((10 : ℚ) * q)
  have hq : (roundHalfEven ((10 : ℚ) * q) : ℚ) ≤ 1000 := by
    exact_mod_cast le_trans hr hceil
  linarith

/-- Claim C4 (corrected): for every validation call the composite score
equals the weighted sum of the seven category scores rounded to one
decimal, and is at most 100; the claimed lower bound 0 fails (see the
counterexample), since category scores are not clamped below. -/
theorem c4_composite_formula_amended :
    ∀ (v : QCValidator) (text : String) (m? : Option PreflightMatrix)
      (autoFix : Bool),
      ((validate v text m? autoFix).2).score
          = round1 (composite ((validate v text m? autoFix).2).breakdown)
        ∧ ((validate v text m? autoFix).2).score ≤ 100 := by
  intro v text m? af
  obtain ⟨t2, h⟩ := validate_snd_eq v text m? af
  rw [h]
  refine ⟨validateResult_score_eq t2 m?, ?_⟩
  have hs : (validateResult t2 m?).score
      = round1 (composite (issuesAndScores t2 m?).1) := rfl
  rw [hs]
  exact round1_le_100 (issuesAndScores_composite_le t2 m?)

/-- `n` copies of a string, for building the counterexample text. -/
def repeatStr : Nat → String → String
  | 0, _ => ""
  | n + 1, s => s ++ repeatStr n s

/-- Sixty consecutive header lines: sixty empty sections. -/
def ce4Text : String := repeatStr 60 "## H\n"

/-- Rounding an integer changes nothing. -/
theorem round1_intCast (n : Int) : round1 (n : ℚ) = n := by
  unfold round1 roundHalfEven
  rw [show (10 : ℚ) * (n : ℚ) = ((10 * n : Int) : ℚ) by push_cast; ring]
  rw [Int.floor_intCast]
  rw [if_pos (by norm_num)]
  push_cast
  ring

/-- Counterexample for C4: sixty empty sections drive the draft score to
−500 and the composite to −18, outside the claimed interval [0, 100]. -/
theorem c4_negative_composite_counterexample :
    (validateResult ce4Text none).score = -18
    ∧ (validateResult ce4Text none).score < 0 := by
  have hbd : (issuesAndScores ce4Text none).1
      = ⟨50, -500, 70, 70, 70, 90, 100⟩ := by
    set_option maxRecDepth 4000 in decide
  have hsc : (validateResult ce4Text none).score
      = round1 (composite (issuesAndScores ce4Text none).1) := rfl
  rw [hbd] at hsc
  have hcomp : composite ⟨50, -500, 70, 70, 70, 90, 100⟩ = -18 := by
    norm_num [composite]
  rw [hcomp] at hsc
  have hr : round1 (-18 : ℚ) = -18 := by
    have := round1_intCast (-18)
    simpa using this
  rw [hr] at hsc
  exact ⟨hsc, by rw [hsc]; norm_num⟩

/-! ## Claim C2 -/

/-- A list with a satisfying member has a successful `find?`. -/
theorem find?_some_of_mem {α : Type} {p : α → Bool} :
    ∀ {l : List α}, (∃ x ∈ l, p x = true) → ∃ y, l.find? p = some y := by
  intro l
  induction l with
  | nil =>
    rintro ⟨x, hx, _⟩
    cases hx
  | cons a rest ih =>
    rintro ⟨x, hx, hpx⟩
    by_cases hpa : p a = true
    · exact ⟨a, List.find?_cons_of_pos _ hpa⟩
    · rcases List.mem_cons.mp hx with rfl | hmem
      · exact absurd hpx hpa
      · obtain ⟨y, hy⟩ := ih ⟨x, hmem, hpx⟩
        exact ⟨y, by rw [List.find?_cons_of_neg _ (by simpa using hpa), hy]⟩

/-- A plan whose primary anchor `X` will sit in the only header of the
counterexample text. -/
def ce2Matrix : PreflightMatrix :=
  { anchorPlan := ⟨"X", ⟨"mittpunkt", 1⟩⟩
    wordCount := none
    lsiNearWindow := none
    trust := none
    guardsCompliance := [] }

/-- Counterexample for C2: the anchor occurs in a section title and the
anchor-category score is 0, but the whole result carries TWO
anchor-category issues — the preflight-compliance rule's
MISSING_PRIMARY_ANCHOR (the anchor is in no link) alongside
ANCHOR_IN_HEADER — so ANCHOR_IN_HEADER is not the only anchor-category
issue of the validation result. -/
theorem c2_two_anchor_issues_counterexample :
    ((parseArticle "## X").sections.any (fun s => strIn "X" s.title))
    ∧ (validateResult "## X" (some ce2Matrix)).breakdown.anchor = 0
    ∧ (((validateResult "## X" (some ce2Matrix)).issues.filter
          (fun i => i.category == "anchor")).map (fun i => i.code))
        = ["MISSING_PRIMARY_ANCHOR", "ANCHOR_IN_HEADER"] :=
  ⟨by decide, by decide, by decide⟩

/-- Claim C2 (corrected): when the plan's primary anchor text occurs in
some section title, the anchor-placement rule short-circuits to score 0
with ANCHOR_IN_HEADER as its only issue — no other anchor-category issue
comes from the anchor rule; the preflight-compliance rule, however, may
still add its own anchor-category MISSING_PRIMARY_ANCHOR issue to the
same result. -/
theorem c2_anchor_in_header_amended :
    ∀ (a : ArticleData) (m : PreflightMatrix),
      (∃ s ∈ a.sections, strIn m.anchorPlan.primary s.title = true) →
      validateAnchorPlacement a (some m)
        = (0, [⟨"error", "anchor", "ANCHOR_IN_HEADER"⟩]) := by
  intro a m h
  obtain ⟨y, hy⟩ := find?_some_of_mem h
  unfold validateAnchorPlacement
  dsimp only
  rw [hy]

/-- Witness for C2 at the spec's own example text. -/
theorem c2_anchor_in_header_witness :
    validateAnchorPlacement (parseArticle "## Buy X now\n\ntext")
        (some ce2Matrix)
      = (0, [⟨"error", "anchor", "ANCHOR_IN_HEADER"⟩]) :=
  c2_anchor_in_header_amended (parseArticle "## Buy X now\n\ntext") ce2Matrix
    (by decide)

/-! ## Claim C6 -/

/-- A pattern found in a suffix is found by the whole scan. -/
theorem scanHit_of_suffix (p : List Char → Bool) :
    ∀ (pre rest : List Char),
      scanHit p rest = true → scanHit p (pre ++ rest) = true := by
  intro pre
  induction pre with
  | nil => intro rest h; simpa using h
  | cons c cs ih =>
    intro rest h
    show scanHit p (c :: (cs ++ rest)) = true
    unfold scanHit
    rw [ih rest h]
    simp

/-- The `enligt \w+\.(se|com|org)` scanner accepts any text starting
with the lowered Swedish phrase. -/
theorem scanHit_enligt_lowPhrase (b : List Char) :
    scanHit matchEnligtAt ("enligt riksarkivet.se".data ++ b) = true := rfl

theorem credibleHit_of_enligt {low : List Char}
    (h : scanHit matchEnligtAt low = true) : credibleHit low = true := by
  unfold credibleHit
  rw [h]
  simp

/-- A plan whose only trust requirement is the "any credible citation"
sentinel. -/
def c6Matrix : PreflightMatrix :=
  { anchorPlan := ⟨"casino", ⟨"mittpunkt", 2⟩⟩
    wordCount := none
    lsiNearWindow := none
    trust := some
      [⟨"PLATSFÖRSLAG", "T2", "Välj en relevant branschkälla eller nyhetssajt"⟩]
    guardsCompliance := [] }

/-- Counterexample for C6: the English phrase "according to
Riksarkivet.se" matches none of the four Swedish citation patterns, so
the trust category scores 0 with MISSING_TRUST_SIGNALS — not 100. -/
theorem c6_english_phrase_counterexample :
    strIn "according to Riksarkivet.se" "according to Riksarkivet.se"
    ∧ validateTrustSignals (parseArticle "according to Riksarkivet.se")
        (some c6Matrix)
      = (0, [⟨"error", "trust", "MISSING_TRUST_SIGNALS"⟩]) :=
  ⟨by decide, by decide⟩

/-- Claim C6 (corrected): the citation-phrase patterns are Swedish; it is
the phrase "enligt Riksarkivet.se" (not the English "according to
Riksarkivet.se") whose presence makes a sentinel-only trust requirement
score exactly 100 with no trust issues. -/
theorem c6_swedish_phrase_amended :
    ∀ (text : String) (m : PreflightMatrix) (ts : TrustSource),
      (∃ pre post, text.data = pre ++ "enligt Riksarkivet.se".data ++ post) →
      m.trust = some [ts] → ts.domain = "PLATSFÖRSLAG" →
      validateTrustSignals (parseArticle text) (some m) = (100, []) := by
  intro text m ts hsplit htrust hdom
  obtain ⟨pre, post, hsplit⟩ := hsplit
  have hlow : (lowerStr (parseArticle text).fullText).data
      = pre.map lowerChar
          ++ ("enligt riksarkivet.se".data ++ post.map lowerChar) := by
    show (String.mk (text.data.map lowerChar)).data = _
    have hmk : (String.mk (text.data.map lowerChar)).data
        = text.data.map lowerChar := rfl
    rw [hmk, hsplit, List.map_append, List.map_append]
    rw [show ("enligt Riksarkivet.se".data.map lowerChar)
          = "enligt riksarkivet.se".data from by decide]
    rw [List.append_assoc]
  have hscan :
      scanHit matchEnligtAt (lowerStr (parseArticle text).fullText).data
        = true := by
    rw [hlow]
    exact scanHit_of_suffix _ _ _ (scanHit_enligt_lowPhrase _)
  have hhit : credibleHit (lowerStr (parseArticle text).fullText).data = true :=
    credibleHit_of_enligt hscan
  unfold validateTrustSignals
  dsimp only
  rw [htrust]
  simp [trustSourceHit, hdom, hhit, List.countP_cons, List.countP_nil]

/-- Witness for C6 on a concrete Swedish sentence. -/
theorem c6_swedish_phrase_witness :
    validateTrustSignals (parseArticle "Detta enligt Riksarkivet.se idag.")
        (some c6Matrix)
      = (100, []) :=
  c6_swedish_phrase_amended "Detta enligt Riksarkivet.se idag." c6Matrix
    ⟨"PLATSFÖRSLAG", "T2", "Välj en relevant branschkälla eller nyhetssajt"⟩
    ⟨"Detta ".data, " idag.".data, by decide⟩ rfl rfl

/-! ## Claim C8 -/

/-- Modelled from the spec's words for comparison: the number of
positions of the haystack at which the needle occurs (so repeated
occurrences of one phrase all count). -/
def countOccAt (needle : List Char) : List Char → Nat
  | [] => 0
  | c :: cs => (if startMatch needle (c :: cs) then 1 else 0) + countOccAt needle cs

/-- Modelled from the spec's words: the total number of occurrences of
promotional phrases in the lowered article text. -/
def promoOccurrenceTotal (text : String) : Nat :=
  (promoPhrases.map (fun ph => countOccAt ph.data (lowerStr text).data)).sum

/-- Counterexample for C8: a text in which promotional phrases occur 4
times in total (more than 3), yet the voice-fit rule applies no
deduction — the source counts distinct listed phrases (here 1), not
occurrences. -/
theorem c8_occurrences_counterexample :
    promoOccurrenceTotal "bästa bästa bästa bästa" = 4
    ∧ validateVoiceFit (parseArticle "bästa bästa bästa bästa") none
        = (90, []) :=
  ⟨by decide, by decide⟩

/-- Claim C8 (corrected): the 20-point deduction with OVERLY_PROMOTIONAL
applies exactly when more than 3 DISTINCT phrases of the fixed
promotional list occur in the article text; repeated occurrences of one
phrase count once. -/
theorem c8_distinct_phrases_amended :
    ∀ (a : ArticleData) (m? : Option PreflightMatrix),
      (3 < promoPhrases.countP (fun ph => strIn ph (lowerStr a.fullText)) →
        validateVoiceFit a m?
          = (70, [⟨"warning", "content", "OVERLY_PROMOTIONAL"⟩]))
      ∧ (promoPhrases.countP (fun ph => strIn ph (lowerStr a.fullText)) ≤ 3 →
        validateVoiceFit a m? = (90, [])) := by
  intro a m?
  unfold validateVoiceFit
  dsimp only
  constructor
  · intro h
    rw [if_pos h]
  · intro h
    rw [if_neg (by omega)]

/-- Witness for C8 on a text with no promotional phrase. -/
theorem c8_distinct_phrases_witness :
    validateVoiceFit (parseArticle "## A\nneutral text") none = (90, []) :=
  (c8_distinct_phrases_amended (parseArticle "## A\nneutral text") none).2
    (by decide)

/-! ## Claim C9 -/

/-- A non-blank, non-header line: exactly the lines the parser turns
into paragraph entries once a section is open. -/
def isBodyLine (l : String) : Bool :=
  !(isHeaderLine l) && !(trimStr l == "")

/-- Total number of paragraph entries of a section list. -/
def paraCountSections (ss : List ArticleSection) : Nat :=
  (ss.map (fun s => s.paragraphs.length)).sum

/-- Total number of paragraph entries of a parsed article. -/
def sectionParaCount (a : ArticleData) : Nat := paraCountSections a.sections

/-- Step equation: a header line closes the current section and opens a
new one. -/
theorem parseLines_cons_header (l : String) (ls : List String)
    (cur : Option ArticleSection) (hH : isHeaderLine l = true) :
    parseLines (l :: ls) cur
      = match cur with
        | some c => c :: parseLines ls (some (newSection l))
        | none => parseLines ls (some (newSection l)) := by
  conv_lhs => unfold parseLines
  rw [if_pos hH]

/-- Step equation: a non-blank body line joins the open section, or is
dropped when none is open. -/
theorem parseLines_cons_body (l : String) (ls : List String)
    (cur : Option ArticleSection) (hH : ¬ isHeaderLine l = true)
    (hB : trimStr l ≠ "") :
    parseLines (l :: ls) cur
      = match cur with
        | some c => parseLines ls (some (addParagraph c l))
        | none => parseLines ls none := by
  conv_lhs => unfold parseLines
  rw [if_neg hH, if_pos hB]

/-- Step equation: a blank line changes nothing. -/
theorem parseLines_cons_blank (l : String) (ls : List String)
    (cur : Option ArticleSection) (hH : ¬ isHeaderLine l = true)
    (hB : ¬ trimStr l ≠ "") :
    parseLines (l :: ls) cur = parseLines ls cur := by
  conv_lhs => unfold parseLines
  rw [if_neg hH, if_neg hB]

/-- The emitted sections are exactly the header lines, in order, with
level the count of leading `#` and the stripped title. -/
theorem parseLines_levels :
    ∀ (ls : List String) (cur : Option ArticleSection),
      (parseLines ls cur).map (fun s => (s.level, s.title))
        = (match cur with
           | some c => [(c.level, c.title)]
           | none => [])
            ++ (ls.filter isHeaderLine).map
                (fun l => (leadingHashCount l, headerTitle l)) := by
  intro ls
  induction ls with
  | nil =>
    intro cur
    cases cur <;> simp [parseLines]
  | cons l rest ih =>
    intro cur
    by_cases hH : isHeaderLine l
    · rw [parseLines_cons_header l rest cur hH]
      cases cur with
      | none =>
        dsimp only
        rw [ih]
        simp [List.filter_cons, hH, newSection]
      | some c =>
        dsimp only
        rw [List.map_cons, ih]
        simp [List.filter_cons, hH, newSection]
    · by_cases hB : trimStr l ≠ ""
      · rw [parseLines_cons_body l rest cur hH hB]
        cases cur with
        | none =>
          dsimp only
          rw [ih]
          simp [List.filter_cons, hH]
        | some c =>
          dsimp only
          rw [ih]
          simp [List.filter_cons, hH, addParagraph]
      · rw [parseLines_cons_blank l rest cur hH hB, ih]
        cases cur <;> simp [List.filter_cons, hH]

/-- Paragraph bookkeeping of the parser loop: with a section open every
body line lands in some section; with none open, body lines are dropped
until the first header line. -/
theorem parseLines_paraCount :
    ∀ (ls : List String) (cur : Option ArticleSection),
      paraCountSections (parseLines ls cur)
        = (match cur with
           | some c => c.paragraphs.length + (ls.filter isBodyLine).length
           | none =>
             ((ls.dropWhile (fun l => !(isHeaderLine l))).filter
               isBodyLine).length) := by
  intro ls
  induction ls with
  | nil =>
    intro cur
    cases cur <;> simp [parseLines, paraCountSections]
  | cons l rest ih =>
    intro cur
    by_cases hH : isHeaderLine l
    · have hBo : isBodyLine l = false := by simp [isBodyLine, hH]
      rw [parseLines_cons_header l rest cur hH]
      cases cur with
      | none =>
        dsimp only
        rw [ih]
        simp [List.dropWhile_cons, List.filter_cons, hH, hBo, newSection]
      | some c =>
        dsimp only
        have hc : paraCountSections (c :: parseLines rest (some (newSection l)))
            = c.paragraphs.length
              + paraCountSections (parseLines rest (some (newSection l))) := by
          simp [paraCountSections]
        rw [hc, ih]
        dsimp only
        simp [List.filter_cons, hBo, newSection]
    · by_cases hB : trimStr l ≠ ""
      · have hBo : isBodyLine l = true := by
          simp [isBodyLine, hH]
          simpa using hB
        rw [parseLines_cons_body l rest cur hH hB]
        cases cur with
        | none =>
          dsimp only
          rw [ih]
          simp [List.dropWhile_cons, hH]
        | some c =>
          dsimp only
          rw [ih]
          dsimp only
          have ha : (addParagraph c l).paragraphs.length
              = c.paragraphs.length + 1 := by simp [addParagraph]
          rw [ha]
          simp [List.filter_cons, hBo]
          omega
      · have hBo : isBodyLine l = false := by
          have ht : trimStr l = "" := not_not.mp (by simpa using hB)
          simp [isBodyLine, ht]
        rw [parseLines_cons_blank l rest cur hH hB, ih]
        cases cur <;> simp [List.dropWhile_cons, List.filter_cons, hH, hBo]

/-- The section grouping stated by the amended claim C9: each header
line opens one section with level the count of its leading `#` and the
stripped remainder as title, carrying — in order — exactly one
`mkParagraph` entry per non-blank non-header line between it and the
next header line; every line before the first header line is skipped. -/
def groupLines : List String → List ArticleSection
  | [] => []
  | l :: ls =>
    if isHeaderLine l then
      { level := leadingHashCount l
        title := headerTitle l
        paragraphs :=
          ((ls.takeWhile (fun x => !(isHeaderLine x))).filter
            isBodyLine).map mkParagraph }
        :: groupLines (ls.dropWhile (fun x => !(isHeaderLine x)))
    else groupLines ls
termination_by ls => ls.length
decreasing_by
  · have hle := (List.dropWhile_sublist
      (l := ls) (fun x => !(isHeaderLine x))).length_le
    simp only [List.length_cons]
    omega
  · simp

/-- With a section open, the parser loop emits that section first —
extended by exactly the body lines up to the next header — and then the
grouping of the remaining lines. -/
theorem parseLines_some_eq_group :
    ∀ (ls : List String) (c : ArticleSection),
      parseLines ls (some c)
        = { c with paragraphs := c.paragraphs
              ++ ((ls.takeWhile (fun x => !(isHeaderLine x))).filter
                    isBodyLine).map mkParagraph }
          :: groupLines (ls.dropWhile (fun x => !(isHeaderLine x))) := by
  intro ls
  induction ls with
  | nil =>
    intro c
    simp [parseLines, groupLines]
  | cons l rest ih =>
    intro c
    by_cases hH : isHeaderLine l
    · rw [parseLines_cons_header l rest (some c) hH]
      dsimp only
      rw [ih (newSection l)]
      rw [List.takeWhile_cons, List.dropWhile_cons]
      simp [hH, newSection, groupLines]
    · by_cases hB : trimStr l ≠ ""
      · have hBo : isBodyLine l = true := by
          simp [isBodyLine, hH]
          simpa using hB
        rw [parseLines_cons_body l rest (some c) hH hB]
        dsimp only
        rw [ih (addParagraph c l)]
        rw [List.takeWhile_cons, List.dropWhile_cons]
        simp [hH, hBo, addParagraph, List.filter_cons]
      · have hBo : isBodyLine l = false := by
          have ht : trimStr l = "" := not_not.mp (by simpa using hB)
          simp [isBodyLine, ht]
        rw [parseLines_cons_blank l rest (some c) hH hB]
        rw [ih c]
        rw [List.takeWhile_cons, List.dropWhile_cons]
        simp [hH, hBo, List.filter_cons]

/-- The parser's section list is exactly the grouping of the line
list. -/
theorem parseLines_none_eq_group :
    ∀ ls : List String, parseLines ls none = groupLines ls := by
  intro ls
  induction ls with
  | nil => simp [parseLines, groupLines]
  | cons l rest ih =>
    by_cases hH : isHeaderLine l
    · rw [parseLines_cons_header l rest none hH]
      dsimp only
      rw [parseLines_some_eq_group rest (newSection l)]
      simp [groupLines, hH, newSection]
    · by_cases hB : trimStr l ≠ ""
      · rw [parseLines_cons_body l rest none hH hB]
        dsimp only
        rw [ih]
        simp [groupLines, hH]
      · rw [parseLines_cons_blank l rest none hH hB, ih]
        simp [groupLines, hH]

/-- Counterexample for C9: in "hej\n## A\ntext" both "hej" and "text"
are non-blank non-header lines, but only one paragraph entry exists —
the line before the first header is silently dropped, so not every
non-blank non-header line becomes a paragraph entry. -/
theorem c9_leading_lines_counterexample :
    sectionParaCount (parseArticle "hej\n## A\ntext") = 1
    ∧ ((splitLinesStr "hej\n## A\ntext").filter isBodyLine).length = 2 :=
  ⟨by decide, by decide⟩

/-- Claim C9 (corrected): the parsed section list equals, section by
section, the grouping of the line list — each line beginning with two
or more `#` opens a new section whose level is the count of leading `#`
and whose title is the stripped remainder, and every other non-blank
line after the first header line becomes exactly one paragraph entry in
the then-current section (the one opened by the most recent header),
while non-blank lines before the first header line are discarded.  The
(level, title) sequence and the paragraph count are restated
explicitly. -/
theorem c9_parse_structure_amended :
    ∀ text : String,
      (parseArticle text).sections = groupLines (splitLinesStr text)
      ∧ ((parseArticle text).sections.map (fun s => (s.level, s.title))
        = ((splitLinesStr text).filter isHeaderLine).map
            (fun l => (leadingHashCount l, headerTitle l)))
      ∧ sectionParaCount (parseArticle text)
        = (((splitLinesStr text).dropWhile
              (fun l => !(isHeaderLine l))).filter isBodyLine).length := by
  intro text
  refine ⟨?_, ?_, ?_⟩
  · have h := parseLines_none_eq_group (splitLinesStr text)
    simpa [parseArticle] using h
  · have h := parseLines_levels (splitLinesStr text) none
    simpa [parseArticle] using h
  · have h := parseLines_paraCount (splitLinesStr text) none
    simpa [parseArticle, sectionParaCount] using h

/-! ## Claim C5 -/

/-- If no element satisfies `p`, the overwrite loop returns its
accumulator. -/
theorem lastIdxGo_all_false (p : String → Bool) :
    ∀ (l : List String) (i : Nat) (acc : Option Nat),
      (∀ s ∈ l, p s = false) → lastIdxGo p l i acc = acc := by
  intro l
  induction l with
  | nil => intro i acc _; rfl
  | cons s rest ih =>
    intro i acc hall
    have hs : p s = false := hall s (by simp)
    unfold lastIdxGo
    rw [hs]
    simp only [Bool.false_eq_true, if_false]
    exact ih _ _ (fun x hx => hall x (List.mem_cons_of_mem _ hx))

/-- The overwrite loop lands on the last satisfying index. -/
theorem lastIdxGo_last (p : String → Bool) :
    ∀ (l : List String) (i : Nat) (acc : Option Nat) (j : Nat)
      (hj : j < l.length),
      p (l.get ⟨j, hj⟩) = true →
      (∀ k (hk : k < l.length), j < k → p (l.get ⟨k, hk⟩) = false) →
      lastIdxGo p l i acc = some (i + j) := by
  intro l
  induction l with
  | nil =>
    intro i acc j hj
    exact absurd hj (by simp)
  | cons s rest ih =>
    intro i acc j hj hpj hafter
    cases j with
    | zero =>
      have hs : p s = true := hpj
      unfold lastIdxGo
      rw [hs]
      simp only [if_true]
      have hall : ∀ x ∈ rest, p x = false := by
        intro x hx
        obtain ⟨⟨n, hn⟩, hget⟩ := List.mem_iff_get.mp hx
        have hk : n + 1 < (s :: rest).length := by
          simp only [List.length_cons]
          omega
        have := hafter (n + 1) hk (by omega)
        rw [List.get_cons_succ] at this
        rw [← hget]
        exact this
      rw [lastIdxGo_all_false p rest _ _ hall]
      simp
    | succ n =>
      have hn : n < rest.length := by
        simp only [List.length_cons] at hj
        omega
      have hpn : p (rest.get ⟨n, hn⟩) = true := by
        rw [← List.get_cons_succ (a := s) (h := by simp only [List.length_cons]; omega)]
        exact hpj
      have hafter' : ∀ k (hk : k < rest.length), n < k →
          p (rest.get ⟨k, hk⟩) = false := by
        intro k hk hlt
        have hk1 : k + 1 < (s :: rest).length := by
          simp only [List.length_cons]
          omega
        have := hafter (k + 1) hk1 (by omega)
        rw [List.get_cons_succ] at this
        exact this
      unfold lastIdxGo
      rw [ih (i + 1) _ n hn hpn hafter']
      congr 1
      omega

/-- Modelled from the spec's words for comparison with the source: the
topical-term rule as the spec describes it, centered on the FIRST
sentence of the flattened sequence containing the anchor. -/
def validateLsiTermsFirstCentered (a : ArticleData)
    (m? : Option PreflightMatrix) : Int × List Issue :=
  match m? with
  | none => (70, [])
  | some m =>
    match m.lsiNearWindow with
    | none => (70, [])
    | some cfg =>
      let anchorLow := lowerStr m.anchorPlan.primary
      let sents := allSentencesLower a
      match sents.findIdx? (fun s => strIn anchorLow s) with
      | none => (0, [⟨"error", "lsi", "ANCHOR_NOT_FOUND_FOR_LSI"⟩])
      | some idx => lsiWindowScore cfg sents idx

/-- A plan with anchor `casino` and six required topical terms. -/
def c5Matrix : PreflightMatrix :=
  { anchorPlan := ⟨"casino", ⟨"mittpunkt", 2⟩⟩
    wordCount := none
    lsiNearWindow := some
      ⟨⟨6, 10, 2, 2⟩, ["alfa", "beta", "gamma", "delta", "epsil", "zeta"]⟩
    trust := none
    guardsCompliance := [] }

/-- An article whose anchor occurs in the first sentence (surrounded by
all six terms) and again in the last sentence (surrounded by none). -/
def c5Text : String :=
  "## A\nHär casino alfa beta gamma delta epsil zeta. Filler ett. Filler två. Filler tre. Filler fyra. Sedan casino igen."

/-- Counterexample for C5: the source rule scores 0 with
INSUFFICIENT_LSI_TERMS because its window is centered on the LAST
anchor sentence, while the first-centered rule of the spec's words
scores 100 — so the window is not centered on the first anchor
sentence. -/
theorem c5_last_not_first_counterexample :
    validateLsiTerms (parseArticle c5Text) (some c5Matrix)
        = (0, [⟨"error", "lsi", "INSUFFICIENT_LSI_TERMS"⟩])
    ∧ validateLsiTermsFirstCentered (parseArticle c5Text) (some c5Matrix)
        = (100, []) :=
  ⟨by decide, by decide⟩

/-- Claim C5 (corrected): the sentence window is centered on the LAST
sentence, in the whole flattened sentence sequence, containing the
anchor text (case-insensitive); if no sentence contains the anchor the
rule returns score 0 with the single issue ANCHOR_NOT_FOUND_FOR_LSI. -/
theorem c5_lsi_window_amended :
    ∀ (a : ArticleData) (m : PreflightMatrix) (cfg : LsiWindow),
      m.lsiNearWindow = some cfg →
      ((∀ s ∈ allSentencesLower a,
          strIn (lowerStr m.anchorPlan.primary) s = false) →
        validateLsiTerms a (some m)
          = (0, [⟨"error", "lsi", "ANCHOR_NOT_FOUND_FOR_LSI"⟩]))
      ∧ (∀ i, i < (allSentencesLower a).length →
          strIn (lowerStr m.anchorPlan.primary)
              ((allSentencesLower a).getD i "") = true →
          (∀ j, j < (allSentencesLower a).length → i < j →
            strIn (lowerStr m.anchorPlan.primary)
                ((allSentencesLower a).getD j "") = false) →
          validateLsiTerms a (some m)
            = lsiWindowScore cfg (allSentencesLower a) i) := by
  intro a m cfg hcfg
  constructor
  · intro hnone
    unfold validateLsiTerms
    dsimp only
    rw [hcfg]
    dsimp only
    rw [show lastIdxWith
          (fun s => strIn (lowerStr m.anchorPlan.primary) s)
          (allSentencesLower a) = none from
      lastIdxGo_all_false _ _ _ _ hnone]
  · intro i hi hpi hafter
    unfold validateLsiTerms
    dsimp only
    rw [hcfg]
    dsimp only
    rw [show lastIdxWith
          (fun s => strIn (lowerStr m.anchorPlan.primary) s)
          (allSentencesLower a) = some i from by
      have hpi2 : strIn (lowerStr m.anchorPlan.primary)
          ((allSentencesLower a).get ⟨i, hi⟩) = true := by
        rw [show (allSentencesLower a).get ⟨i, hi⟩
              = (allSentencesLower a).getD i "" from by
          simp [List.getD_eq_getElem (allSentencesLower a) "" hi,
            List.get_eq_getElem, List.getElem?_eq_getElem hi]]
        exact hpi
      have hafter2 : ∀ k (hk : k < (allSentencesLower a).length), i < k →
          strIn (lowerStr m.anchorPlan.primary)
            ((allSentencesLower a).get ⟨k, hk⟩) = false := by
        intro k hk hlt
        rw [show (allSentencesLower a).get ⟨k, hk⟩
              = (allSentencesLower a).getD k "" from by
          simp [List.getD_eq_getElem (allSentencesLower a) "" hk,
            List.get_eq_getElem, List.getElem?_eq_getElem hk]]
        exact hafter k hk hlt
      have := lastIdxGo_last _ (allSentencesLower a) 0 none i hi hpi2 hafter2
      simpa [lastIdxWith] using this]

/-- Witness for C5: on the counterexample article the chosen center is
index 5 — the last of the two anchor sentences. -/
theorem c5_lsi_window_witness :
    validateLsiTerms (parseArticle c5Text) (some c5Matrix)
      = lsiWindowScore
          ⟨⟨6, 10, 2, 2⟩, ["alfa", "beta", "gamma", "delta", "epsil", "zeta"]⟩
          (allSentencesLower (parseArticle c5Text)) 5 := by
  have hlen : (allSentencesLower (parseArticle c5Text)).length = 6 := by decide
  exact (c5_lsi_window_amended (parseArticle c5Text) c5Matrix _ rfl).2 5
    (by omega) (by decide) (fun j hj h5 => by omega)

/-! ## Claim C7 -/

/-- Claim C7 (confirmed): whatever the order fields, the shuffle and
count draws, and the registry rows (including a missing or failing
registry), the built plan's topical-term list has at least 6 entries and
its trust-source list at least 1.  The hypotheses on `shuffled` say
exactly that it is some duplicate-free reordering of the pooled terms
(`list(set(lsi_terms))` after `random.shuffle`), and `6 ≤ k ≤ 10` is the
range of `random.randint(6, 10)`. -/
theorem c7_plan_min_terms_and_trust :
    ∀ (topic publicationDomain targetUrl : String) (shuffled : List String)
      (k : Nat) (dbRows : Option (List RegistryRow))
      (anchorPlan : AnchorPlan) (compliance : List String),
      shuffled.Nodup →
      (∀ x, x ∈ shuffled ↔ x ∈ lsiTermPool topic publicationDomain targetUrl) →
      6 ≤ k → k ≤ 10 →
      ((buildMatrixCore anchorPlan compliance (generateLsiTerms shuffled k)
          (selectTrustSources topic publicationDomain dbRows)).lsiNearWindow
        = some { policy := builtWindowPolicy
                 terms := generateLsiTerms shuffled k })
      ∧ ((buildMatrixCore anchorPlan compliance (generateLsiTerms shuffled k)
            (selectTrustSources topic publicationDomain dbRows)).trust
        = some (selectTrustSources topic publicationDomain dbRows))
      ∧ 6 ≤ (generateLsiTerms shuffled k).length
      ∧ 1 ≤ (selectTrustSources topic publicationDomain dbRows).length := by
  intro topic pub target shuffled k dbRows ap comp hnd hmem hk6 hk10
  refine ⟨rfl, rfl, ?_, ?_⟩
  · have hsub : genericLsiTerms.toFinset ⊆ shuffled.toFinset := by
      intro x hx
      rw [List.mem_toFinset] at hx
      rw [List.mem_toFinset]
      refine (hmem x).mpr ?_
      unfold lsiTermPool
      exact List.mem_append.mpr (Or.inr hx)
    have hcard := Finset.card_le_card hsub
    have h8 : genericLsiTerms.toFinset.card = 8 := by decide
    have hlen : shuffled.toFinset.card = shuffled.length :=
      List.toFinset_card_of_nodup hnd
    unfold generateLsiTerms
    rw [List.length_take]
    omega
  · unfold selectTrustSources
    dsimp only
    split
    · split <;> simp
    · omega

/-- Witness for C7: a pool with no topic triggers, the identity shuffle,
the smallest draw and an absent registry. -/
theorem c7_plan_min_terms_witness :
    6 ≤ (generateLsiTerms (lsiTermPool "a" "b" "c") 6).length
    ∧ 1 ≤ (selectTrustSources "a" "b" none).length :=
  ⟨(c7_plan_min_terms_and_trust "a" "b" "c" (lsiTermPool "a" "b" "c") 6 none
      ⟨"x", ⟨"mittpunkt", 1⟩⟩ [] (by decide) (fun x => Iff.rfl) (by norm_num)
      (by norm_num)).2.2.1,
   (c7_plan_min_terms_and_trust "a" "b" "c" (lsiTermPool "a" "b" "c") 6 none
      ⟨"x", ⟨"mittpunkt", 1⟩⟩ [] (by decide) (fun x => Iff.rfl) (by norm_num)
      (by norm_num)).2.2.2⟩

end QC
